import Mathlib

/-!
Formal model of `check_json_schema_meta.py`, a pre-commit hook that checks
the `$schema` reference of JSON files.

The embedding follows the source file closely:

* `JSON` models the values produced by Python's `json.load` (numbers as
  integers, which suffices for every property considered here).
* `FileState` models what the file system holds at a path: missing file,
  file whose contents are not valid JSON, or a parsed JSON document.
* The external collaborator (check_jsonschema's `SchemaLoader` together with
  the `jsonschema` validator) is abstracted as a function
  `ExtValidator : String → String → JSON → Except PyExc Unit` taking the
  file path, the (possibly env-expanded) schema reference and the instance
  document, and either succeeding or raising an exception.
* Python exceptions are modelled by the `PyExc` type and `Except`;
  `validate_body` is the `try:` block of `validate_json_file`, and
  `handleResult` is its chain of `except` clauses.
* `processFile` / `mainLoop` / `main` model the per-file driver loop of
  `main` and the final aggregation into an exit code.  `processFileExc` /
  `mainExc` are the same functions at the exception-propagation level, over
  the extended file states `FileStateX`: they show which exceptions `main`
  catches and which ones escape it (its parse guard catches only
  `json.JSONDecodeError`, so an exception of another class raised by
  `open`/`json.load` crashes the process).
-/

namespace CheckJsonSchemaMeta

/-- JSON values as produced by `json.load`.  Numbers are modelled as
integers; objects are association lists with unique keys (Python dicts). -/
inductive JSON where
  | null
  | bool (b : Bool)
  | num (n : Int)
  | str (s : String)
  | arr (xs : List JSON)
  | obj (kvs : List (String × JSON))

/-- Python truthiness: `not x` is true exactly on these values
(`None`, `False`, `0`, `""`, `[]`, `{}`). -/
def JSON.falsy : JSON → Bool
  | .null => true
  | .bool b => !b
  | .num n => n == 0
  | .str s => s == ""
  | .arr xs => xs.isEmpty
  | .obj kvs => kvs.isEmpty

/-- The Python type name of a JSON value, as it appears in an
`AttributeError` message. -/
def pyTypeName : JSON → String
  | .null => "NoneType"
  | .bool _ => "bool"
  | .num _ => "int"
  | .str _ => "str"
  | .arr _ => "list"
  | .obj _ => "dict"

/-- `data.get(k)` on a parsed JSON object (a Python dict). -/
def objGet (kvs : List (String × JSON)) (k : String) : Option JSON :=
  (kvs.find? (fun kv => kv.1 == k)).map (fun kv => kv.2)

/-- `{k: v for k, v in data.items() if k != "$schema"}` — the copy of the
document without its `$schema` key that is handed to the validator. -/
def data_without_schema (kvs : List (String × JSON)) : List (String × JSON) :=
  kvs.filter (fun kv => kv.1 != "$schema")

/-- The state of the file system at one path, as distinguished by the
normal (non-crashing) paths of the program: missing, present but not valid
JSON, or present and parsed. -/
inductive FileState where
  | notFound
  | parseError (msg : String)
  | parsed (content : JSON)

/-- The state of the file system at one path including the states on which
`open`/`json.load` raise an exception other than `json.JSONDecodeError`:
`openExc` is an existing path that is a directory (`IsADirectoryError`),
holds non-UTF-8 bytes (`UnicodeDecodeError`), or nests too deeply
(`RecursionError`), carried as the exception's message.  `main`'s parse
guard catches only `json.JSONDecodeError`, so these states matter to the
exception-level model. -/
inductive FileStateX where
  | normal (fs : FileState)
  | openExc (msg : String)

/-- Python exceptions relevant to this program: `json.JSONDecodeError`,
`jsonschema.ValidationError` (with its `absolute_path`, elements already
stringified, and `message`), and any other `Exception`. -/
inductive PyExc where
  | jsonDecodeError (msg : String)
  | validationError (path : List String) (msg : String)
  | otherExc (msg : String)

/-- The external schema loader / validator, as a black box: given the file
path, the schema reference and the instance document, succeed or raise. -/
def ExtValidator : Type := String → JSON → JSON → Except PyExc Unit

/-- `os.path.expandvars` applied to the schema reference: on a string it
substitutes environment variables (the substitution function `ev` is a
parameter of the model); on any other value it raises `TypeError`. -/
def expandvarsPy (ev : String → String) : JSON → Except PyExc JSON
  | .str s => .ok (.str (ev s))
  | j => .error (.otherExc
      ("expected str, bytes or os.PathLike object, not " ++ pyTypeName j))

/-- A line printed with a leading ✅, `f"✅ {p}{rest}"`. -/
def okLine (p rest : String) : String := "✅ " ++ (p ++ rest)

/-- A line printed with a leading ❌, `f"❌ {p}{rest}"`. -/
def errLine (p rest : String) : String := "❌ " ++ (p ++ rest)

/-- `str(FileNotFoundError)` for a path, as raised by `open`. -/
def fnfMsg (p : String) : String :=
  "[Errno 2] No such file or directory: \x27" ++ p ++ "\x27"

/-- `str(AttributeError)` raised by `data.get` on a non-dict value. -/
def noGetAttrMsg (j : JSON) : String :=
  "\x27" ++ pyTypeName j ++ "\x27 object has no attribute \x27get\x27"

/-- The `try:` block of `validate_json_file`: open and parse the file,
branch on list / missing-or-falsy `$schema` / present `$schema`, and in the
last case expand environment variables if requested and call the external
loader/validator on the document without its `$schema` key.  Returns the
printed lines and the boolean result, or the exception raised. -/
def validate_body (ext : ExtValidator) (ev : String → String) (p : String)
    (fs : FileState) (strict expand_env_vars : Bool) :
    Except PyExc (List String × Bool) :=
  match fs with
  | .notFound => .error (.otherExc (fnfMsg p))
  | .parseError m => .error (.jsonDecodeError m)
  | .parsed data =>
    match data with
    | .arr _ =>
      if strict then
        .ok ([errLine p ": JSON array does not support \x27$schema\x27 key"], false)
      else
        .ok ([], true)
    | .obj kvs =>
      match objGet kvs "$schema" with
      | none =>
        if strict then
          .ok ([errLine p ": Missing \x27$schema\x27 key"], false)
        else
          .ok ([], true)
      | some r =>
        if r.falsy then
          if strict then
            .ok ([errLine p ": Missing \x27$schema\x27 key"], false)
          else
            .ok ([], true)
        else
          match (if expand_env_vars then expandvarsPy ev r else .ok r) with
          | .error ex => .error ex
          | .ok ref2 =>
            match ext p ref2 (JSON.obj (data_without_schema kvs)) with
            | .ok _ => .ok ([okLine p ": Schema validation passed"], true)
            | .error ex => .error ex
    | other => .error (.otherExc (noGetAttrMsg other))

/-- The line printed by the `except` clauses of `validate_json_file` for
each class of exception. -/
def excLines (p : String) : PyExc → List String
  | .jsonDecodeError m => [errLine p (": Invalid JSON - " ++ m)]
  | .validationError path m =>
    if path.isEmpty then
      [errLine p (": Schema validation failed - " ++ m)]
    else
      [errLine p (": Invalid value at \x27" ++ String.intercalate "." path
        ++ "\x27 - " ++ m)]
  | .otherExc m => [errLine p (": " ++ m)]

/-- The `except` clauses of `validate_json_file`: every exception is caught
and converted to one printed ❌ line plus the result `False`. -/
def handleResult (p : String) : Except PyExc (List String × Bool) → List String × Bool
  | .ok r => r
  | .error e => (excLines p e, false)

/-- `validate_json_file(file_path, strict, expand_env_vars)`. -/
def validate_json_file (ext : ExtValidator) (ev : String → String) (p : String)
    (fs : FileState) (strict expand_env_vars : Bool) : List String × Bool :=
  handleResult p (validate_body ext ev p fs strict expand_env_vars)

/-- One iteration of the loop in `main`: existence check, parse attempt,
then delegation to `validate_json_file`.  Returns the printed lines and the
boolean appended to `validation_results`. -/
def processFile (ext : ExtValidator) (ev : String → String)
    (strict expand_env_vars : Bool) (p : String) (fs : FileState) :
    List String × Bool :=
  match fs with
  | .notFound => ([errLine p ": File not found"], false)
  | .parseError _ => ([errLine p ": Not a valid JSON file"], false)
  | .parsed d => validate_json_file ext ev p (.parsed d) strict expand_env_vars

/-- The `for file_path in args.files:` loop of `main`, accumulating the
printed lines and the list `validation_results` in order. -/
def mainLoop (ext : ExtValidator) (ev : String → String)
    (strict expand_env_vars : Bool) (fsys : String → FileState)
    (acc : List String × List Bool) : List String → List String × List Bool
  | [] => acc
  | p :: rest =>
    let r := processFile ext ev strict expand_env_vars p (fsys p)
    mainLoop ext ev strict expand_env_vars fsys
      (acc.1 ++ r.1, acc.2 ++ [r.2]) rest

/-- `main()`, applied to already-parsed arguments: the flags, the file
system and the list of file names.  Returns the printed lines and the exit
code `0 if all(validation_results) else 1`. -/
def main (ext : ExtValidator) (ev : String → String)
    (strict expand_env_vars : Bool) (fsys : String → FileState)
    (files : List String) : List String × Nat :=
  let out := mainLoop ext ev strict expand_env_vars fsys ([], []) files
  (out.1, if out.2.all (fun b => b) then 0 else 1)

/-- `json.load` in the body of `main`, at the exception level: a missing
file raises `FileNotFoundError` (an `OSError`), an unparsable file raises
`json.JSONDecodeError`, and an `openExc` state raises its non-`JSONDecodeError`
exception (`IsADirectoryError`, `UnicodeDecodeError`, `RecursionError`, ...). -/
def tryParse (p : String) : FileStateX → Except PyExc JSON
  | .normal .notFound => .error (.otherExc (fnfMsg p))
  | .normal (.parseError m) => .error (.jsonDecodeError m)
  | .normal (.parsed d) => .ok d
  | .openExc m => .error (.otherExc m)

/-- One iteration of the loop in `main` at the exception level: only
`json.JSONDecodeError` is caught around the parse attempt; any other
exception raised there — as an `openExc` state does — propagates out of
`main`. -/
def processFileExc (ext : ExtValidator) (ev : String → String)
    (strict expand_env_vars : Bool) (p : String) (fsx : FileStateX) :
    Except PyExc (List String × Bool) :=
  match fsx with
  | .normal .notFound => .ok ([errLine p ": File not found"], false)
  | fsx2 =>
    match tryParse p fsx2 with
    | .error (.jsonDecodeError _) => .ok ([errLine p ": Not a valid JSON file"], false)
    | .error ex => .error ex
    | .ok d => .ok (validate_json_file ext ev p (.parsed d) strict expand_env_vars)

/-- The loop of `main` at the exception level: an uncaught exception in one
iteration aborts the whole loop. -/
def mainLoopExc (ext : ExtValidator) (ev : String → String)
    (strict expand_env_vars : Bool) (fsysx : String → FileStateX)
    (acc : List String × List Bool) :
    List String → Except PyExc (List String × List Bool)
  | [] => .ok acc
  | p :: rest =>
    match processFileExc ext ev strict expand_env_vars p (fsysx p) with
    | .error ex => .error ex
    | .ok r =>
      mainLoopExc ext ev strict expand_env_vars fsysx
        (acc.1 ++ r.1, acc.2 ++ [r.2]) rest

/-- `main()` at the exception level: `.error` is a crash (an uncaught
exception), `.ok` a normal return with lines and exit code. -/
def mainExc (ext : ExtValidator) (ev : String → String)
    (strict expand_env_vars : Bool) (fsysx : String → FileStateX)
    (files : List String) : Except PyExc (List String × Nat) :=
  match mainLoopExc ext ev strict expand_env_vars fsysx ([], []) files with
  | .error ex => .error ex
  | .ok out => .ok (out.1, if out.2.all (fun b => b) then 0 else 1)

/-- The pass/error outcome of the `$schema`-present path, as a function of
the reference string actually given to the external loader: used to state
which reference and which instance document reach the collaborator. -/
def extDispatch (ext : ExtValidator) (p : String) (ref : JSON)
    (kvs : List (String × JSON)) : List String × Bool :=
  match ext p ref (JSON.obj (data_without_schema kvs)) with
  | .ok _ => ([okLine p ": Schema validation passed"], true)
  | .error ex => (excLines p ex, false)

/-- A file state on which `strict` matters: a parsed JSON array, or a parsed
object whose `$schema` key is absent or falsy. -/
def schemaless : FileState → Bool
  | .parsed (.arr _) => true
  | .parsed (.obj kvs) =>
    match objGet kvs "$schema" with
    | none => true
    | some r => r.falsy
  | _ => false

/-- Modelled from the spec: the acceptance decision of the external
validator for a property schema carrying `additionalProperties: false` —
such a schema accepts an object exactly when every key is among the declared
property names.  (The validator itself is third-party code outside this
repository.) -/
def additionalPropsFalseAccepts (allowed : List String)
    (kvs : List (String × JSON)) : Bool :=
  kvs.all (fun kv => allowed.contains kv.1)

/-- An external validator that always succeeds. -/
def extOk : ExtValidator := fun _ _ _ => .ok ()

/-- An external validator that always raises a `ValidationError` with an
empty path. -/
def extValErr : ExtValidator := fun _ _ _ => .error (.validationError [] "boom")

/-- The identity environment expansion (no variables present). -/
def idEnv : String → String := fun s => s

/-- A small concrete document used to instantiate the theorems: an object
with a `$schema` reference and one further key. -/
def demoKvs : List (String × JSON) :=
  [("$schema", JSON.str "https://example.com/s.json"), ("name", JSON.str "x")]

theorem objGet_data_without_schema_self (kvs : List (String × JSON)) :
    objGet (data_without_schema kvs) "$schema" = none := by
  unfold objGet
  rw [Option.map_eq_none', List.find?_eq_none]
  intro kv hmem
  rcases List.mem_filter.mp hmem with ⟨-, hne⟩
  simpa using (bne_iff_ne (α := String)).mp hne

theorem objGet_data_without_schema_of_ne (kvs : List (String × JSON))
    (k : String) (hk : k ≠ "$schema") :
    objGet (data_without_schema kvs) k = objGet kvs k := by
  induction kvs with
  | nil => rfl
  | cons kv rest ih =>
    by_cases h : kv.1 = "$schema"
    · have h1 : data_without_schema (kv :: rest) = data_without_schema rest := by
        simp [data_without_schema, List.filter_cons, h]
      have hb : (kv.1 == k) = false := by
        refine beq_eq_false_iff_ne.mpr ?_
        rw [h]
        exact fun hc => hk hc.symm
      have h2 : objGet (kv :: rest) k = objGet rest k := by
        simp [objGet, List.find?_cons, hb]
      rw [h1, ih, h2]
    · have h1 : data_without_schema (kv :: rest) = kv :: data_without_schema rest := by
        simp [data_without_schema, List.filter_cons, h]
      by_cases h2 : kv.1 = k
      · have hb : (kv.1 == k) = true := beq_iff_eq.mpr h2
        rw [h1]
        simp [objGet, List.find?_cons, hb]
      · have hb : (kv.1 == k) = false := beq_eq_false_iff_ne.mpr h2
        rw [h1]
        simp only [objGet, List.find?_cons, hb]
        exact ih

theorem mem_data_without_schema (kvs : List (String × JSON)) (kv : String × JSON) :
    kv ∈ data_without_schema kvs ↔ kv ∈ kvs ∧ kv.1 ≠ "$schema" := by
  simp [data_without_schema, List.mem_filter]

theorem mainLoop_spec (ext : ExtValidator) (ev : String → String)
    (strict e : Bool) (fsys : String → FileState) (files : List String)
    (acc : List String × List Bool) :
    mainLoop ext ev strict e fsys acc files
      = (acc.1 ++ (files.map (fun p => (processFile ext ev strict e p (fsys p)).1)).flatten,
         acc.2 ++ files.map (fun p => (processFile ext ev strict e p (fsys p)).2)) := by
  induction files generalizing acc with
  | nil => simp [mainLoop]
  | cons p rest ih => simp [mainLoop, ih, List.append_assoc]

theorem exit_all_iff (bs : List Bool) :
    ((if bs.all (fun b => b) then (0 : Nat) else 1) = 0 ↔ ∀ b ∈ bs, b = true)
    ∧ ((if bs.all (fun b => b) then (0 : Nat) else 1) = 1 ↔ ∃ b ∈ bs, b = false) := by
  by_cases hc : bs.all (fun b => b) = true
  · rw [if_pos hc]
    rw [List.all_eq_true] at hc
    refine ⟨⟨fun _ b hb => hc b hb, fun _ => rfl⟩, ?_, ?_⟩
    · intro h01
      exact absurd h01 (by simp)
    · rintro ⟨b, hb, hfalse⟩
      have := hc b hb
      rw [hfalse] at this
      exact absurd this (by simp)
  · rw [if_neg hc]
    have hex : ∃ b ∈ bs, b = false := by
      by_contra hno
      push_neg at hno
      apply hc
      rw [List.all_eq_true]
      intro x hx
      have hxf := hno x hx
      cases x with
      | true => rfl
      | false => exact absurd rfl hxf
    refine ⟨⟨fun h10 => absurd h10 (by simp), ?_⟩, fun _ => hex, fun _ => rfl⟩
    intro h
    rcases hex with ⟨b, hb, hbf⟩
    have := h b hb
    rw [hbf] at this
    exact absurd this (by simp)

/-- C1: the exit code of `main` is 0 iff every named file's outcome is
non-failing (its boolean is `true`), and 1 iff some file's outcome is
failing. -/
theorem C1_exit_code_iff_all_pass (ext : ExtValidator) (ev : String → String)
    (strict e : Bool) (fsys : String → FileState) (files : List String) :
    ((main ext ev strict e fsys files).2 = 0
      ↔ ∀ p ∈ files, (processFile ext ev strict e p (fsys p)).2 = true)
    ∧ ((main ext ev strict e fsys files).2 = 1
      ↔ ∃ p ∈ files, (processFile ext ev strict e p (fsys p)).2 = false) := by
  have hmain : (main ext ev strict e fsys files).2
      = if (files.map (fun p => (processFile ext ev strict e p (fsys p)).2)).all
            (fun b => b) then 0 else 1 := by
    simp [main, mainLoop_spec]
  rw [hmain]
  have h := exit_all_iff
    (files.map (fun p => (processFile ext ev strict e p (fsys p)).2))
  constructor
  · rw [h.1]
    simp [List.mem_map]
  · rw [h.2]
    simp [List.mem_map]

/-- C7: the driver checks existence first, but performs no file-extension
check: every existing file is parsed, and every parseable file is handed to
`validate_json_file`, for every path `p` whatever its extension. -/
theorem C7_driver_checks (ext : ExtValidator) (ev : String → String)
    (strict e : Bool) (p : String) (j : JSON) (m : String) :
    processFile ext ev strict e p .notFound = ([errLine p ": File not found"], false)
    ∧ processFile ext ev strict e p (.parseError m)
      = ([errLine p ": Not a valid JSON file"], false)
    ∧ processFile ext ev strict e p (.parsed j)
      = validate_json_file ext ev p (.parsed j) strict e :=
  ⟨rfl, rfl, rfl⟩

/-- C7 counterexample: a file whose extension is not `.json` is loaded,
parsed and fully validated — the extension does not influence processing,
contradicting the claimed extension check. -/
theorem C7_counterexample_extension_ignored :
    processFile extOk idEnv false false "conf.babelrc" (.parsed (.obj demoKvs))
      = ([okLine "conf.babelrc" ": Schema validation passed"], true)
    ∧ (processFile extOk idEnv false false "conf.babelrc" (.parsed (.obj demoKvs))).2
      = (processFile extOk idEnv false false "conf.json" (.parsed (.obj demoKvs))).2 :=
  ⟨rfl, rfl⟩

/-- C10: `main` processes every named file in command-line order, appending
exactly one boolean per file; each printed block and each boolean depends
only on that file, so an earlier failure never short-circuits or alters a
later file's processing. -/
theorem C10_per_file_independence (ext : ExtValidator) (ev : String → String)
    (strict e : Bool) (fsys : String → FileState) (files : List String) :
    (mainLoop ext ev strict e fsys ([], []) files).2
      = files.map (fun p => (processFile ext ev strict e p (fsys p)).2)
    ∧ (mainLoop ext ev strict e fsys ([], []) files).1
      = (files.map (fun p => (processFile ext ev strict e p (fsys p)).1)).flatten
    ∧ ((mainLoop ext ev strict e fsys ([], []) files).2).length = files.length := by
  refine ⟨by simp [mainLoop_spec], by simp [mainLoop_spec], ?_⟩
  simp [mainLoop_spec]

/-- C2: a parsed JSON array, or a parsed object without a `$schema` key, is
a pass when `strict` is false and a failure when `strict` is true, and the
result never depends on the external loader/validator or on the environment
expansion — neither is invoked. -/
theorem C2_schemaless_inputs (ext1 ext2 : ExtValidator) (ev1 ev2 : String → String)
    (p : String) (j : JSON) (e1 e2 : Bool)
    (h : (∃ xs, j = JSON.arr xs)
      ∨ (∃ kvs, j = JSON.obj kvs ∧ objGet kvs "$schema" = none)) :
    (validate_json_file ext1 ev1 p (.parsed j) false e1).2 = true
    ∧ (validate_json_file ext1 ev1 p (.parsed j) true e1).2 = false
    ∧ ∀ s : Bool, validate_json_file ext1 ev1 p (.parsed j) s e1
        = validate_json_file ext2 ev2 p (.parsed j) s e2 := by
  rcases h with ⟨xs, rfl⟩ | ⟨kvs, rfl, hget⟩
  · exact ⟨rfl, rfl, fun s => rfl⟩
  · refine ⟨?_, ?_, fun s => ?_⟩ <;>
      simp [validate_json_file, validate_body, handleResult, hget]

/-- C2 witness: instantiation at a concrete array and a concrete
schema-less object. -/
theorem C2_witness :
    ((validate_json_file extOk idEnv "a.json" (.parsed (JSON.arr [JSON.num 1])) false false).2 = true
      ∧ (validate_json_file extOk idEnv "a.json" (.parsed (JSON.arr [JSON.num 1])) true false).2 = false
      ∧ ∀ s : Bool, validate_json_file extOk idEnv "a.json" (.parsed (JSON.arr [JSON.num 1])) s false
          = validate_json_file extValErr idEnv "a.json" (.parsed (JSON.arr [JSON.num 1])) s true)
    ∧ ((validate_json_file extOk idEnv "a.json" (.parsed (JSON.obj [("name", JSON.str "x")])) false false).2 = true
      ∧ (validate_json_file extOk idEnv "a.json" (.parsed (JSON.obj [("name", JSON.str "x")])) true false).2 = false
      ∧ ∀ s : Bool, validate_json_file extOk idEnv "a.json" (.parsed (JSON.obj [("name", JSON.str "x")])) s false
          = validate_json_file extValErr idEnv "a.json" (.parsed (JSON.obj [("name", JSON.str "x")])) s true) :=
  ⟨C2_schemaless_inputs extOk extValErr idEnv idEnv "a.json" (JSON.arr [JSON.num 1])
      false true (Or.inl ⟨[JSON.num 1], rfl⟩),
   C2_schemaless_inputs extOk extValErr idEnv idEnv "a.json"
      (JSON.obj [("name", JSON.str "x")]) false true
      (Or.inr ⟨[("name", JSON.str "x")], rfl, rfl⟩)⟩

/-- C9: an object whose `$schema` key holds a falsy value (null, false, 0,
the empty string, ...) is treated exactly like an object without the key:
pass when `strict` is false, failure with the missing-key message when
`strict` is true, identical to the behaviour on the document with the key
removed, and the external loader/validator is never invoked. -/
theorem C9_falsy_schema_treated_as_missing (ext : ExtValidator)
    (ev : String → String) (p : String) (kvs : List (String × JSON))
    (r : JSON) (e : Bool)
    (h1 : objGet kvs "$schema" = some r) (h2 : r.falsy = true) :
    validate_json_file ext ev p (.parsed (.obj kvs)) true e
      = ([errLine p ": Missing \x27$schema\x27 key"], false)
    ∧ validate_json_file ext ev p (.parsed (.obj kvs)) false e = ([], true)
    ∧ (∀ strict : Bool, validate_json_file ext ev p (.parsed (.obj kvs)) strict e
        = validate_json_file ext ev p
            (.parsed (.obj (data_without_schema kvs))) strict e)
    ∧ ∀ (ext2 : ExtValidator) (ev2 : String → String) (e2 strict : Bool),
        validate_json_file ext ev p (.parsed (.obj kvs)) strict e
          = validate_json_file ext2 ev2 p (.parsed (.obj kvs)) strict e2 := by
  refine ⟨?_, ?_, fun strict => ?_, fun ext2 ev2 e2 strict => ?_⟩ <;>
    simp [validate_json_file, validate_body, handleResult, h1, h2,
      objGet_data_without_schema_self]

/-- C9 witness: instantiation at `{"$schema": 0}`. -/
theorem C9_witness :
    validate_json_file extOk idEnv "a.json"
        (.parsed (.obj [("$schema", JSON.num 0)])) true false
      = ([errLine "a.json" ": Missing \x27$schema\x27 key"], false)
    ∧ validate_json_file extOk idEnv "a.json"
        (.parsed (.obj [("$schema", JSON.num 0)])) false false = ([], true)
    ∧ (∀ strict : Bool, validate_json_file extOk idEnv "a.json"
          (.parsed (.obj [("$schema", JSON.num 0)])) strict false
        = validate_json_file extOk idEnv "a.json"
            (.parsed (.obj (data_without_schema [("$schema", JSON.num 0)]))) strict false)
    ∧ ∀ (ext2 : ExtValidator) (ev2 : String → String) (e2 strict : Bool),
        validate_json_file extOk idEnv "a.json"
            (.parsed (.obj [("$schema", JSON.num 0)])) strict false
          = validate_json_file ext2 ev2 "a.json"
              (.parsed (.obj [("$schema", JSON.num 0)])) strict e2 :=
  C9_falsy_schema_treated_as_missing extOk idEnv "a.json"
    [("$schema", JSON.num 0)] (JSON.num 0) false rfl rfl

/-- C5 (amended): the `strict` flag is irrelevant except on schema-less
inputs (arrays and objects with an absent or falsy `$schema`): on a missing
file, an unparsable file, a non-object non-array document, or an object
with a truthy `$schema` value, `validate_json_file` returns the same lines
and the same boolean under both settings. -/
theorem C5_strict_independent_unless_schemaless (ext : ExtValidator)
    (ev : String → String) (p : String) (e : Bool) (fs : FileState)
    (h : schemaless fs = false) :
    validate_json_file ext ev p fs true e = validate_json_file ext ev p fs false e := by
  cases fs with
  | notFound => rfl
  | parseError m => rfl
  | parsed j =>
    cases j with
    | null => rfl
    | bool b => rfl
    | num n => rfl
    | str s => rfl
    | arr xs => simp [schemaless] at h
    | obj kvs =>
      cases hget : objGet kvs "$schema" with
      | none => simp [schemaless, hget] at h
      | some r =>
        have hf : r.falsy = false := by simpa [schemaless, hget] using h
        simp [validate_json_file, validate_body, hget, hf]

/-- C5 witness: instantiation at an unparsable file. -/
theorem C5_witness :
    schemaless (FileState.parseError "bad") = false
    ∧ validate_json_file extOk idEnv "a.json" (FileState.parseError "bad") true false
      = validate_json_file extOk idEnv "a.json" (FileState.parseError "bad") false false :=
  ⟨rfl, C5_strict_independent_unless_schemaless extOk idEnv "a.json" false
    (FileState.parseError "bad") rfl⟩

/-- C5 counterexample: a JSON array is not "a JSON object missing its
`$schema` key", yet its outcome depends on `strict`, so the claim's
strict-independence fails there. -/
theorem C5_counterexample_array_strict_dependent :
    (validate_json_file extOk idEnv "a.json"
        (.parsed (JSON.arr [JSON.num 1])) true false).2 = false
    ∧ (validate_json_file extOk idEnv "a.json"
        (.parsed (JSON.arr [JSON.num 1])) false false).2 = true :=
  ⟨rfl, rfl⟩

/-- C8: for an object whose `$schema` holds a (truthy) string, the reference
given to the external loader is the environment-expanded string when
`expand_env_vars` is true, and the unchanged string when it is false. -/
theorem C8_expand_env_vars_policy (ext : ExtValidator) (ev : String → String)
    (p : String) (kvs : List (String × JSON)) (sref : String) (strict : Bool)
    (h1 : objGet kvs "$schema" = some (JSON.str sref)) (h2 : sref ≠ "") :
    validate_json_file ext ev p (.parsed (.obj kvs)) strict true
      = extDispatch ext p (JSON.str (ev sref)) kvs
    ∧ validate_json_file ext ev p (.parsed (.obj kvs)) strict false
      = extDispatch ext p (JSON.str sref) kvs := by
  have hf : (JSON.str sref).falsy = false := by simp [JSON.falsy, h2]
  constructor
  · simp only [validate_json_file, validate_body, h1, hf, if_true, if_false,
      Bool.false_eq_true, expandvarsPy]
    cases hext : ext p (JSON.str (ev sref)) (JSON.obj (data_without_schema kvs)) with
    | ok u => simp [handleResult, extDispatch, hext]
    | error ex => simp [handleResult, extDispatch, hext]
  · simp only [validate_json_file, validate_body, h1, hf, if_true, if_false,
      Bool.false_eq_true, expandvarsPy]
    cases hext : ext p (JSON.str sref) (JSON.obj (data_without_schema kvs)) with
    | ok u => simp [handleResult, extDispatch, hext]
    | error ex => simp [handleResult, extDispatch, hext]

/-- C8 witness: instantiation at the demo document. -/
theorem C8_witness :
    validate_json_file extOk idEnv "a.json" (.parsed (.obj demoKvs)) false true
      = extDispatch extOk "a.json" (JSON.str (idEnv "https://example.com/s.json")) demoKvs
    ∧ validate_json_file extOk idEnv "a.json" (.parsed (.obj demoKvs)) false false
      = extDispatch extOk "a.json" (JSON.str "https://example.com/s.json") demoKvs :=
  C8_expand_env_vars_policy extOk idEnv "a.json" demoKvs
    "https://example.com/s.json" false rfl (by decide)

/-- C3: on an object with a truthy `$schema`, the instance document handed
to the external validator is exactly the parsed object with the `$schema`
key removed: lookups at every other key are unchanged, membership is
preserved, and a property schema with `additionalProperties: false` whose
allowed names cover the other keys accepts the stripped document. -/
theorem C3_schema_key_stripped (ext : ExtValidator) (ev : String → String)
    (p : String) (kvs : List (String × JSON)) (r : JSON) (strict e : Bool)
    (allowed : List String)
    (h1 : objGet kvs "$schema" = some r) (h2 : r.falsy = false) :
    (validate_json_file ext ev p (.parsed (.obj kvs)) strict e
      = match (if e then expandvarsPy ev r else Except.ok r) with
        | .ok ref2 => extDispatch ext p ref2 kvs
        | .error ex => (excLines p ex, false))
    ∧ objGet (data_without_schema kvs) "$schema" = none
    ∧ (∀ k, k ≠ "$schema" → objGet (data_without_schema kvs) k = objGet kvs k)
    ∧ (∀ kv, kv ∈ data_without_schema kvs ↔ kv ∈ kvs ∧ kv.1 ≠ "$schema")
    ∧ ((∀ kv ∈ kvs, kv.1 = "$schema" ∨ kv.1 ∈ allowed) →
        additionalPropsFalseAccepts allowed (data_without_schema kvs) = true) := by
  refine ⟨?_, objGet_data_without_schema_self kvs,
    fun k hk => objGet_data_without_schema_of_ne kvs k hk,
    fun kv => mem_data_without_schema kvs kv, ?_⟩
  · cases hstep : (if e then expandvarsPy ev r else Except.ok r) with
    | error ex =>
      simp [validate_json_file, validate_body, handleResult, h1, h2, hstep]
    | ok ref2 =>
      cases hext : ext p ref2 (JSON.obj (data_without_schema kvs)) with
      | ok u =>
        simp [validate_json_file, validate_body, handleResult, extDispatch,
          h1, h2, hstep, hext]
      | error ex =>
        simp [validate_json_file, validate_body, handleResult, extDispatch,
          h1, h2, hstep, hext]
  · intro hall
    simp only [additionalPropsFalseAccepts, List.all_eq_true]
    intro kv hmem
    rcases (mem_data_without_schema kvs kv).mp hmem with ⟨hkv, hne⟩
    rcases hall kv hkv with hs | hs
    · exact absurd hs hne
    · exact List.elem_eq_true_of_mem hs

/-- C3 witness: instantiation at the demo document with allowed key
`name`. -/
theorem C3_witness :
    objGet demoKvs "$schema" = some (JSON.str "https://example.com/s.json")
    ∧ (JSON.str "https://example.com/s.json").falsy = false
    ∧ objGet (data_without_schema demoKvs) "$schema" = none
    ∧ additionalPropsFalseAccepts ["name"] (data_without_schema demoKvs) = true :=
  ⟨rfl, rfl,
   (C3_schema_key_stripped extOk idEnv "a.json" demoKvs
      (JSON.str "https://example.com/s.json") false false ["name"] rfl rfl).2.1,
   (C3_schema_key_stripped extOk idEnv "a.json" demoKvs
      (JSON.str "https://example.com/s.json") false false ["name"] rfl rfl).2.2.2.2
     (by decide)⟩

theorem processFileExc_eq_ok (ext : ExtValidator) (ev : String → String)
    (strict e : Bool) (p : String) (fs : FileState) :
    processFileExc ext ev strict e p (.normal fs)
      = .ok (processFile ext ev strict e p fs) := by
  cases fs <;> rfl

theorem processFileExc_openExc (ext : ExtValidator) (ev : String → String)
    (strict e : Bool) (p m : String) :
    processFileExc ext ev strict e p (.openExc m) = .error (.otherExc m) := rfl

theorem mainLoopExc_eq_ok (ext : ExtValidator) (ev : String → String)
    (strict e : Bool) (fsys : String → FileState) (files : List String)
    (acc : List String × List Bool) :
    mainLoopExc ext ev strict e (fun q => .normal (fsys q)) acc files
      = .ok (mainLoop ext ev strict e fsys acc files) := by
  induction files generalizing acc with
  | nil => rfl
  | cons p rest ih => simp [mainLoopExc, mainLoop, processFileExc_eq_ok, ih]

/-- C4 (amended): JSON parse errors, missing-file errors and
schema-validation errors are caught and turned into one printed message
plus the boolean `false`, and over the states those handlers cover
(missing / unparsable / parsed) `main` always returns normally; but
`main`'s own parse guard catches only `json.JSONDecodeError`, so an
exception of any other class raised by its `open`/`json.load` (a directory
path, non-UTF-8 bytes, over-deep nesting) propagates out of `main` as a
crash. -/
theorem C4_error_handling_amended (ext : ExtValidator) (ev : String → String)
    (strict e : Bool) (fsys : String → FileState) (files : List String)
    (p m : String) :
    mainExc ext ev strict e (fun q => .normal (fsys q)) files
      = .ok (main ext ev strict e fsys files)
    ∧ processFile ext ev strict e p .notFound
      = ([errLine p ": File not found"], false)
    ∧ processFile ext ev strict e p (.parseError m)
      = ([errLine p ": Not a valid JSON file"], false)
    ∧ (∀ (kvs : List (String × JSON)) (r : JSON),
        objGet kvs "$schema" = some r → r.falsy = false →
        ext p r (JSON.obj (data_without_schema kvs))
          = .error (.validationError [] m) →
        validate_json_file ext ev p (.parsed (.obj kvs)) strict false
          = ([errLine p (": Schema validation failed - " ++ m)], false))
    ∧ mainExc ext ev strict e (fun _ => .openExc m) [p]
      = .error (.otherExc m) := by
  refine ⟨?_, rfl, rfl, ?_, rfl⟩
  · simp [mainExc, main, mainLoopExc_eq_ok]
  · intro kvs r h1 h2 h3
    simp [validate_json_file, validate_body, handleResult, excLines, h1, h2, h3]

/-- C4 witness: a run over a missing file returns normally, a validation
error from the external validator is converted to a line plus `false`, and
a directory-like state crashes `main`. -/
theorem C4_witness :
    mainExc extValErr idEnv false false
        (fun _ => FileStateX.normal FileState.notFound) ["a.json"]
      = .ok (main extValErr idEnv false false (fun _ => FileState.notFound) ["a.json"])
    ∧ validate_json_file extValErr idEnv "a.json" (.parsed (.obj demoKvs)) false false
      = ([errLine "a.json" (": Schema validation failed - boom")], false)
    ∧ mainExc extValErr idEnv false false (fun _ => FileStateX.openExc "boom") ["a.json"]
      = .error (.otherExc "boom") := by
  have h := C4_error_handling_amended extValErr idEnv false false
    (fun _ => FileState.notFound) ["a.json"] "a.json" "boom"
  exact ⟨h.1, h.2.2.2.1 demoKvs (JSON.str "https://example.com/s.json") rfl rfl rfl,
    h.2.2.2.2⟩

/-- C4 counterexample: an existing path on which `open`/`json.load` raises
an exception other than `json.JSONDecodeError` — here a directory, raising
`IsADirectoryError` — is not caught by `main`'s parse guard: the exception
propagates out of `main` as a crash, refuting the claim that no error
raised while processing a file escapes `main`. -/
theorem C4_counterexample_uncaught_crash :
    mainExc extOk idEnv false false
        (fun _ => FileStateX.openExc "[Errno 21] Is a directory: \x27d\x27") ["d"]
      = .error (.otherExc "[Errno 21] Is a directory: \x27d\x27") := rfl

theorem excLines_shape (p : String) (ex : PyExc) :
    ∃ q, excLines p ex = ["❌ " ++ q] := by
  cases ex with
  | jsonDecodeError m => exact ⟨p ++ (": Invalid JSON - " ++ m), rfl⟩
  | validationError path m =>
    by_cases hp : path.isEmpty = true
    · refine ⟨p ++ (": Schema validation failed - " ++ m), ?_⟩
      simp [excLines, errLine, hp]
    · refine ⟨p ++ (": Invalid value at \x27" ++ String.intercalate "." path
        ++ "\x27 - " ++ m), ?_⟩
      simp [excLines, errLine, hp]
  | otherExc m => exact ⟨p ++ (": " ++ m), rfl⟩

theorem processFile_lines_shape (ext : ExtValidator) (ev : String → String)
    (strict e : Bool) (p : String) (fs : FileState) :
    (processFile ext ev strict e p fs).1 = []
    ∨ (∃ q, (processFile ext ev strict e p fs).1 = ["✅ " ++ q])
    ∨ (∃ q, (processFile ext ev strict e p fs).1 = ["❌ " ++ q]) := by
  cases fs with
  | notFound => exact Or.inr (Or.inr ⟨p ++ ": File not found", rfl⟩)
  | parseError m => exact Or.inr (Or.inr ⟨p ++ ": Not a valid JSON file", rfl⟩)
  | parsed j =>
    cases j with
    | null => exact Or.inr (Or.inr ⟨p ++ (": " ++ noGetAttrMsg JSON.null), rfl⟩)
    | bool b => exact Or.inr (Or.inr ⟨p ++ (": " ++ noGetAttrMsg (JSON.bool b)), rfl⟩)
    | num n => exact Or.inr (Or.inr ⟨p ++ (": " ++ noGetAttrMsg (JSON.num n)), rfl⟩)
    | str s => exact Or.inr (Or.inr ⟨p ++ (": " ++ noGetAttrMsg (JSON.str s)), rfl⟩)
    | arr xs =>
      cases strict with
      | false => exact Or.inl rfl
      | true =>
        exact Or.inr (Or.inr
          ⟨p ++ ": JSON array does not support \x27$schema\x27 key", rfl⟩)
    | obj kvs =>
      cases hget : objGet kvs "$schema" with
      | none =>
        cases strict with
        | false =>
          refine Or.inl ?_
          simp [processFile, validate_json_file, validate_body, handleResult, hget]
        | true =>
          refine Or.inr (Or.inr ⟨p ++ ": Missing \x27$schema\x27 key", ?_⟩)
          simp [processFile, validate_json_file, validate_body, handleResult,
            hget, errLine]
      | some r =>
        by_cases hf : r.falsy = true
        · cases strict with
          | false =>
            refine Or.inl ?_
            simp [processFile, validate_json_file, validate_body, handleResult,
              hget, hf]
          | true =>
            refine Or.inr (Or.inr ⟨p ++ ": Missing \x27$schema\x27 key", ?_⟩)
            simp [processFile, validate_json_file, validate_body, handleResult,
              hget, hf, errLine]
        · rw [Bool.not_eq_true] at hf
          cases hstep : (if e then expandvarsPy ev r else Except.ok r) with
          | error ex =>
            rcases excLines_shape p ex with ⟨q, hq⟩
            refine Or.inr (Or.inr ⟨q, ?_⟩)
            simp [processFile, validate_json_file, validate_body, handleResult,
              hget, hf, hstep, hq]
          | ok ref2 =>
            cases hext : ext p ref2 (JSON.obj (data_without_schema kvs)) with
            | ok u =>
              refine Or.inr (Or.inl ⟨p ++ ": Schema validation passed", ?_⟩)
              simp [processFile, validate_json_file, validate_body, handleResult,
                hget, hf, hstep, hext, okLine]
            | error ex =>
              rcases excLines_shape p ex with ⟨q, hq⟩
              refine Or.inr (Or.inr ⟨q, ?_⟩)
              simp [processFile, validate_json_file, validate_body, handleResult,
                hget, hf, hstep, hext, hq]

/-- C6 (amended): each processed file prints at most one status line, every
printed status line is prefixed ✅ or ❌ (⚠️ never occurs), and a file
skipped in non-strict mode (schema-less input) prints no line at all. -/
theorem C6_status_line_shape (ext : ExtValidator) (ev : String → String)
    (strict e : Bool) (p : String) (fs : FileState) :
    (processFile ext ev strict e p fs).1.length ≤ 1
    ∧ (∀ l ∈ (processFile ext ev strict e p fs).1,
        (∃ q, l = "✅ " ++ q) ∨ (∃ q, l = "❌ " ++ q))
    ∧ (schemaless fs = true → strict = false →
        processFile ext ev strict e p fs = ([], true)) := by
  refine ⟨?_, ?_, ?_⟩
  · rcases processFile_lines_shape ext ev strict e p fs with h | ⟨q, h⟩ | ⟨q, h⟩ <;>
      simp [h]
  · intro l hl
    rcases processFile_lines_shape ext ev strict e p fs with h | ⟨q, h⟩ | ⟨q, h⟩ <;>
      rw [h] at hl
    · exact absurd hl (List.not_mem_nil l)
    · exact Or.inl ⟨q, by simpa using hl⟩
    · exact Or.inr ⟨q, by simpa using hl⟩
  · intro hs hstrict
    subst hstrict
    cases fs with
    | notFound => simp [schemaless] at hs
    | parseError m => simp [schemaless] at hs
    | parsed j =>
      cases j with
      | null => simp [schemaless] at hs
      | bool b => simp [schemaless] at hs
      | num n => simp [schemaless] at hs
      | str s => simp [schemaless] at hs
      | arr xs => rfl
      | obj kvs =>
        cases hget : objGet kvs "$schema" with
        | none =>
          simp [processFile, validate_json_file, validate_body, handleResult, hget]
        | some r =>
          have hf : r.falsy = true := by simpa [schemaless, hget] using hs
          simp [processFile, validate_json_file, validate_body, handleResult,
            hget, hf]

/-- C6 witness: a schema-less object in non-strict mode is a pass that
prints nothing. -/
theorem C6_witness :
    schemaless (FileState.parsed (.obj [("name", JSON.str "x")])) = true
    ∧ processFile extOk idEnv false false "a.json"
        (.parsed (.obj [("name", JSON.str "x")])) = ([], true) := by
  have h := C6_status_line_shape extOk idEnv false false "a.json"
    (.parsed (.obj [("name", JSON.str "x")]))
  exact ⟨rfl, h.2.2 rfl rfl⟩

/-- C6 counterexample: a file skipped in non-strict mode gets zero status
lines, not exactly one. -/
theorem C6_counterexample_skip_prints_nothing :
    (processFile extOk idEnv false false "a.json"
        (.parsed (.obj [("name", JSON.str "x")]))).1.length = 0 := rfl

end CheckJsonSchemaMeta
